import Mathlib

/-!
Shallow embedding of the CODEBASE_RAG_APP repository: the chunking pipeline
in backend/api/chunking_parsing_AST.py, the embedding generator in
backend/api/embeddings.py, namespace derivation and the RAG query path in
main.py and backend/main.py. External collaborators (tree-sitter, the
sentence-embedding model, the vector index and the language model) are
passed in as explicit function parameters; filesystem traversal is passed
in as the list of entries os.walk would yield.
-/

/-- Model of the Python string slice code[a:b] for 0 <= a, b: the characters
with indices a <= i < b. -/
def pySlice (s : String) (a b : Nat) : String :=
  String.mk ((s.toList.drop a).take (b - a))

/-- startsList n h is true when the list n is an initial segment of h. -/
def startsList : List Char → List Char → Bool
  | [], _ => true
  | _ :: _, [] => false
  | a :: as, b :: bs => a = b && startsList as bs

/-- substrList n h is true when n occurs contiguously inside h; together with
pyInStr this models the Python substring test (n in h). -/
def substrList : List Char → List Char → Bool
  | needle, [] => startsList needle []
  | needle, c :: rest => startsList needle (c :: rest) || substrList needle rest

/-- Model of the Python substring containment test (needle in hay). -/
def pyInStr (needle hay : String) : Bool :=
  substrList needle.toList hay.toList

/-- Index of the last dot in a character list, if any. -/
def lastDotPos : List Char → Option Nat
  | [] => none
  | c :: rest =>
    match lastDotPos rest with
    | some j => some (j + 1)
    | none => if c = '.' then some 0 else none

/-- Model of the extension component of os.path.splitext for a plain file
name without path separators: the part from the last dot on, provided some
character before that dot is not itself a dot (leading dots never start an
extension, matching CPython). -/
def pySplitextExt (name : String) : String :=
  match lastDotPos name.toList with
  | none => ""
  | some i =>
    if (name.toList.take i).any (fun c => c != '.') then
      String.mk (name.toList.drop i)
    else ""

/-- Model of os.path.join for the shapes this program produces: the second
component is a bare file name, never absolute. -/
def os_path_join (a b : String) : String :=
  if a = "" then b
  else if a.toList.getLast? = some '/' then a ++ b
  else a ++ "/" ++ b

/-- Model of the Python expression s.replace(".git", "") specialised to the
pattern used by the program: left-to-right removal of every non-overlapping
occurrence of .git from the character list. -/
def removeDotGit : List Char → List Char
  | '.' :: 'g' :: 'i' :: 't' :: rest => removeDotGit rest
  | c :: rest => c :: removeDotGit rest
  | [] => []

/-- Model of the Python expression s.split("/") on character lists: segments
between slashes, with empty segments kept, and [""] for the empty string. -/
def splitOnSlash : List Char → List (List Char)
  | [] => [[]]
  | c :: rest =>
    match splitOnSlash rest with
    | [] => [[]]
    | seg :: segs => if c = '/' then [] :: seg :: segs else (c :: seg) :: segs

/-- Namespace derivation used by submit_repo and clone_repository in both
main.py variants and by clone_repo in backend/api/github_clone.py:
repo_url.split("/")[-1].replace(".git", ""). -/
def derive_namespace (repo_url : String) : String :=
  String.mk (removeDotGit ((splitOnSlash repo_url.toList).getLastD []))

/-! ## Chunking pipeline (backend/api/chunking_parsing_AST.py) -/

/-- The SUPPORTED_EXTENSIONS set. -/
def SUPPORTED_EXTENSIONS : List String :=
  [".py", ".java", ".js", ".ts", ".cpp", ".h", ".ipynb"]

/-- The IGNORED_EXTENSIONS set. -/
def IGNORED_EXTENSIONS : List String :=
  [".pkl", ".npy", ".h5", ".bin", ".exe", ".dll", ".so", ".o", ".class",
   ".log", ".txt", ".md", ".csv", ".json", ".xml", ".yaml", ".yml", ".lock"]

/-- The IGNORED_DIRS set. -/
def IGNORED_DIRS : List String :=
  ["node_modules", "venv", "env", "dist", "build", ".git", "__pycache__",
   ".next", ".vscode", "vendor"]

/-- The extension to grammar registry used inside parse_repo_store_all. -/
def languageForExtension (ext : String) : Option String :=
  if ext = ".py" then some "python"
  else if ext = ".ipynb" then some "python"
  else if ext = ".java" then some "java"
  else if ext = ".js" then some "javascript"
  else if ext = ".ts" then some "typescript"
  else if ext = ".cpp" then some "cpp"
  else if ext = ".h" then some "cpp"
  else none

/-- A tree-sitter syntax node as consumed by SimpleTreeSitterParser.parse:
its kind string, byte offsets and row numbers (start_point[0], end_point[0]).
Tree-sitter itself is an external collaborator, so nodes are inputs. -/
structure TSNode where
  type : String
  start_byte : Nat
  end_byte : Nat
  start_row : Nat
  end_row : Nat
deriving DecidableEq

/-- A chunk dictionary as built by the chunking module. Structural chunks
carry type, content, start_line and end_line; whole-file chunks carry type,
content and file_path. Option fields model which keys a given dict has. -/
structure Chunk where
  type : String
  content : String
  start_line : Option Nat
  end_line : Option Nat
  file_path : Option String
deriving DecidableEq

/-- Node kinds classified as class chunks. -/
def classNodeTypes : List String := ["class", "class_declaration", "class_definition"]

/-- Node kinds classified as method chunks. -/
def methodNodeTypes : List String :=
  ["function", "function_definition", "method", "method_declaration"]

/-- Node kinds classified as variable chunks. -/
def variableNodeTypes : List String :=
  ["variable_declaration", "declaration", "let_declaration", "const_declaration"]

/-- Node kinds classified as import chunks. -/
def importNodeTypes : List String := ["import_statement", "import"]

/-- Node kinds classified as export chunks. -/
def exportNodeTypes : List String := ["export_statement", "export"]

/-- All node kinds recognised by the classifier chain. -/
def recognizedNodeTypes : List String :=
  classNodeTypes ++ methodNodeTypes ++ variableNodeTypes ++ importNodeTypes ++ exportNodeTypes

/-- The chunk kinds a structural chunk can carry. -/
def chunkCategories : List String := ["class", "method", "variable", "import", "export"]

/-- The if/elif classifier body of SimpleTreeSitterParser.parse applied to one
direct child of the root node: a recognised kind yields one chunk whose
content is the byte-offset slice of the code and whose line numbers are the
1-based rows; an unrecognised kind yields nothing (warning only). -/
def chunkOfNode (code : String) (child : TSNode) : Option Chunk :=
  if child.type ∈ classNodeTypes then
    some ⟨"class", pySlice code child.start_byte child.end_byte,
          some (child.start_row + 1), some (child.end_row + 1), none⟩
  else if child.type ∈ methodNodeTypes then
    some ⟨"method", pySlice code child.start_byte child.end_byte,
          some (child.start_row + 1), some (child.end_row + 1), none⟩
  else if child.type ∈ variableNodeTypes then
    some ⟨"variable", pySlice code child.start_byte child.end_byte,
          some (child.start_row + 1), some (child.end_row + 1), none⟩
  else if child.type ∈ importNodeTypes then
    some ⟨"import", pySlice code child.start_byte child.end_byte,
          some (child.start_row + 1), some (child.end_row + 1), none⟩
  else if child.type ∈ exportNodeTypes then
    some ⟨"export", pySlice code child.start_byte child.end_byte,
          some (child.start_row + 1), some (child.end_row + 1), none⟩
  else none

/-- SimpleTreeSitterParser.parse: iterate over the direct children of the
syntax tree root (one level only, no recursion into nested scopes),
appending one chunk per recognised child. -/
def SimpleTreeSitterParser.parse (code : String) (children : List TSNode) : List Chunk :=
  children.filterMap (chunkOfNode code)

/-- One file as seen by parse_repo_store_all. The content is what
get_file_content returns (none on a read failure). The parseOutcome models
the external tree-sitter run on this file: the direct children of the root
on success, or none when parser construction or parsing raises. -/
structure SrcFile where
  name : String
  content : Option String
  parseOutcome : Option (List TSNode)
deriving DecidableEq

/-- One (root, files) level of the os.walk traversal. -/
structure WalkEntry where
  root : String
  files : List SrcFile
deriving DecidableEq

/-- The per-file body of the loop in parse_repo_store_all: ignored
extensions are skipped; supported extensions are read, and when the content
is non-empty the structural chunks (if parsing succeeded) are emitted
followed by a whole-file chunk, or the whole-file chunk alone when parsing
raised; every other extension is skipped with a warning. -/
def processFile (root : String) (f : SrcFile) : List Chunk :=
  let file_path := os_path_join root f.name
  let extension := pySplitextExt f.name
  if extension ∈ IGNORED_EXTENSIONS then []
  else if extension ∈ SUPPORTED_EXTENSIONS then
    match f.content with
    | none => []
    | some code =>
      if code = "" then []
      else
        match f.parseOutcome with
        | some children =>
            SimpleTreeSitterParser.parse code children ++
              [⟨"file", code, none, none, some file_path⟩]
        | none => [⟨"file", code, none, none, some file_path⟩]
  else []

/-- One os.walk level of parse_repo_store_all: a root whose path contains
any ignored directory name as a substring is skipped entirely. -/
def processEntry (e : WalkEntry) : List Chunk :=
  if IGNORED_DIRS.any (fun d => pyInStr d e.root) then []
  else e.files.flatMap (processFile e.root)

/-- All chunks accumulated over the walk. -/
def collectChunks (walk : List WalkEntry) : List Chunk :=
  walk.flatMap processEntry

/-- parse_repo_store_all: accumulate chunks over the walk and raise
ValueError when none were produced. -/
def parse_repo_store_all (walk : List WalkEntry) : Except String (List Chunk) :=
  let all_chunks := collectChunks walk
  if all_chunks = [] then
    Except.error "No valid code chunks found in the repository."
  else Except.ok all_chunks

/-! ## Embedding generator (backend/api/embeddings.py) -/

/-- The chunk dictionaries generate_embedding expects: each must carry
content, type, path and may carry name, start_line, end_line (read with
dict.get). -/
structure InChunk where
  type : String
  content : String
  name : Option String
  path : String
  start_line : Option Nat
  end_line : Option Nat
deriving DecidableEq

/-- One element of the list generate_embedding returns: the encoded vector
of the content together with the metadata dict. -/
structure EmbeddingRecord where
  embedding : List Int
  meta_type : String
  meta_name : Option String
  meta_path : String
  meta_start_line : Option Nat
  meta_end_line : Option Nat
deriving DecidableEq

/-- generate_embedding: for each chunk in order, encode its content with the
sentence-transformer (an external collaborator, passed as encode) and pair
the vector with the metadata fields of that chunk. -/
def generate_embedding (encode : String → List Int) (chunks : List InChunk) :
    List EmbeddingRecord :=
  chunks.map (fun c =>
    ⟨encode c.content, c.type, c.name, c.path, c.start_line, c.end_line⟩)

/-! ## RAG query path (main.py and backend/main.py) -/

/-- One Pinecone match as perform_rag reads it: a similarity score and the
text metadata field, absent when the stored metadata has no text key. -/
structure PMatch where
  score : Int
  text : Option String
deriving DecidableEq

/-- The observable outcome of one perform_rag call: the embedding vector
sent to the index, the matches the index returned, the returned answer, and
whether the language-model completion endpoint was called. -/
structure RagResult where
  vector : List Int
  matchList : List PMatch
  answer : String
  llmCalled : Bool
deriving DecidableEq

/-- The system message perform_rag in main.py sends to the language model. -/
def frontSystemPrompt : String := "Answer as concisely as possible."

/-- The system message perform_rag in backend/main.py sends to the language
model. -/
def backendSystemPrompt : String :=
  "You are a Senior Software Engineer, specializing in TypeScript.\n\n    Answer any questions I have about the codebase, based on the code provided. Always consider all of the context provided when forming a response.\n    "

/-- perform_rag from main.py. The embedding model, the vector index and the
language model are external collaborators passed as functions: embed maps
text to a vector, index maps (namespace, vector) to the match list, llm maps
(system message, user message) to a completion. An empty match list
short-circuits to the canned answer without calling llm; otherwise the
context block is assembled from the match texts in index order and llm is
called once. -/
def perform_rag (embed : String → List Int) (index : String → List Int → List PMatch)
    (llm : String → String → String) (query : String) (ns : String) : RagResult :=
  let vector := embed query
  let response_matches := index ns vector
  if response_matches = [] then
    ⟨vector, response_matches, "No relevant context found for the query.", false⟩
  else
    let contexts := response_matches.map (fun m => m.text.getD "")
    let augmented_query :=
      "<CONTEXT>\n" ++ String.intercalate "\n\n-------\n\n" contexts ++
        "\n-------\n</CONTEXT>\n\n" ++ query
    ⟨vector, response_matches, llm frontSystemPrompt augmented_query, true⟩

/-- One entry of the history list a query request carries. -/
structure HistoryEntry where
  role : String
  content : String
deriving DecidableEq

/-- The history linearization in query_codebase (main.py): one role-tagged
line per entry, joined with newlines. -/
def linearize_history (history : List HistoryEntry) : String :=
  String.intercalate "\n" (history.map (fun e => e.role ++ ": " ++ e.content))

/-- query_codebase from main.py: when the linearized history is non-empty it
is prepended to the query, and the resulting augmented query is what
perform_rag receives (and therefore what it embeds for retrieval). -/
def query_codebase (embed : String → List Int) (index : String → List Int → List PMatch)
    (llm : String → String → String) (query : String) (history : List HistoryEntry)
    (ns : String) : RagResult :=
  let history_context := linearize_history history
  let augmented_query :=
    if history_context ≠ "" then
      "History:\n" ++ history_context ++ "\n\nQuery:\n" ++ query
    else query
  perform_rag embed index llm augmented_query ns

namespace Backend

/-- perform_rag from backend/main.py: identical retrieval and
short-circuit logic; only the context framing and the system message
differ. -/
def perform_rag (embed : String → List Int) (index : String → List Int → List PMatch)
    (llm : String → String → String) (query : String) (ns : String) : RagResult :=
  let vector := embed query
  let response_matches := index ns vector
  if response_matches = [] then
    ⟨vector, response_matches, "No relevant context found for the query.", false⟩
  else
    let contexts := response_matches.map (fun m => m.text.getD "")
    let augmented_query :=
      "<CONTEXT>\n" ++ String.intercalate "\n\n-------\n\n" contexts ++
        "\n-------\n</CONTEXT>\n\n\n\nMY QUESTION:\n" ++ query
    ⟨vector, response_matches, llm backendSystemPrompt augmented_query, true⟩

end Backend

/-! ## Spec-side definitions, used only to compare claims against the code -/

/-- Spec-side namespace derivation, following the claim words: take the last
path segment and strip a trailing .git suffix, and only a trailing one. -/
def specDeriveNamespace (repo_url : String) : String :=
  let seg := (splitOnSlash repo_url.toList).getLastD []
  if seg.reverse.take 4 = ['t', 'i', 'g', '.'] then
    String.mk ((seg.reverse.drop 4).reverse)
  else String.mk seg

/-- Remove later duplicates from a list of texts, keeping the first (and,
for a descending-score match list, highest-scoring) occurrence. -/
def dedupKeepFirst : List String → List String
  | [] => []
  | t :: rest => t :: (dedupKeepFirst rest).filter (fun s => s != t)

/-- Spec-side context assembly, following the claim words: collapse matches
with identical content so duplicates are not double-counted, keeping the
highest-scoring (first, since the gateway returns matches in descending
score order) occurrence, then join the texts with the delimiter inside the
framing markers, as main.py formats them. -/
def specAssembleContext (ms : List PMatch) (query : String) : String :=
  let texts := dedupKeepFirst (ms.map (fun m => m.text.getD ""))
  "<CONTEXT>\n" ++ String.intercalate "\n\n-------\n\n" texts ++
    "\n-------\n</CONTEXT>\n\n" ++ query

/-! ## Theorems -/

/-- Claim C9: whenever the repository traversal yields no chunks at all,
parse_repo_store_all raises the no-valid-chunks ValueError instead of
returning, and whenever it returns it returns a non-empty chunk list. -/
theorem parse_repo_store_all_never_empty (walk : List WalkEntry) :
    (collectChunks walk = [] →
      parse_repo_store_all walk =
        Except.error "No valid code chunks found in the repository.") ∧
    (∀ chunks, parse_repo_store_all walk = Except.ok chunks → chunks ≠ []) := by
  constructor
  · intro h
    simp [parse_repo_store_all, h]
  · intro chunks h hnil
    by_cases hc : collectChunks walk = []
    · simp [parse_repo_store_all, hc] at h
    · simp [parse_repo_store_all, hc] at h
      exact hc (h ▸ hnil)

/-- Witness for C9: on an empty traversal the function raises. -/
theorem parse_repo_store_all_never_empty_witness :
    parse_repo_store_all [] =
      Except.error "No valid code chunks found in the repository." :=
  (parse_repo_store_all_never_empty []).1 rfl

/-- Claim C10: the ignored-directory filter tests substring containment of
each ignored name against the full directory path string, so every walk
level whose root path contains an ignored name as a substring contributes no
chunks at all. -/
theorem ignored_dir_substring_skips_entry (root : String) (files : List SrcFile)
    (h : (IGNORED_DIRS.any fun d => pyInStr d root) = true) :
    processEntry ⟨root, files⟩ = [] := by
  simp [processEntry, h]

/-- Witness for C10: a directory named distribution is not itself in
IGNORED_DIRS, but its path contains dist as a substring, so a file inside it
that would otherwise produce chunks is skipped entirely. -/
theorem ignored_dir_substring_skips_entry_witness :
    ¬ ("distribution" ∈ IGNORED_DIRS) ∧
    processFile "repo/distribution" ⟨"a.py", some "x = 1\n", some []⟩ ≠ [] ∧
    processEntry ⟨"repo/distribution", [⟨"a.py", some "x = 1\n", some []⟩]⟩ = [] :=
  ⟨by decide, by decide,
    ignored_dir_substring_skips_entry "repo/distribution" _ (by decide)⟩

/-- Claim C4: generate_embedding returns exactly one embedding record per
input chunk, in input order, the i-th record pairing the i-th chunk's
metadata fields with the encoding of the i-th chunk's content. -/
theorem generate_embedding_preserves_order (encode : String → List Int)
    (chunks : List InChunk) :
    (generate_embedding encode chunks).length = chunks.length ∧
    ∀ i : Nat, (generate_embedding encode chunks)[i]? =
      (chunks[i]?).map (fun c =>
        EmbeddingRecord.mk (encode c.content) c.type c.name c.path
          c.start_line c.end_line) := by
  refine ⟨by simp [generate_embedding], fun i => ?_⟩
  simp [generate_embedding]

/-- Claim C2: with zero retrieved matches both perform_rag variants return
the canned no-relevant-context answer without calling the language model,
and the language model is called only when at least one match came back. -/
theorem rag_short_circuit_no_llm (embed : String → List Int)
    (index : String → List Int → List PMatch) (llm : String → String → String)
    (query ns : String) :
    (index ns (embed query) = [] →
      perform_rag embed index llm query ns =
        ⟨embed query, [], "No relevant context found for the query.", false⟩ ∧
      Backend.perform_rag embed index llm query ns =
        ⟨embed query, [], "No relevant context found for the query.", false⟩) ∧
    ((perform_rag embed index llm query ns).llmCalled = true →
      index ns (embed query) ≠ []) ∧
    ((Backend.perform_rag embed index llm query ns).llmCalled = true →
      index ns (embed query) ≠ []) := by
  refine ⟨fun h => ⟨?_, ?_⟩, ?_, ?_⟩
  · simp [perform_rag, h]
  · simp [Backend.perform_rag, h]
  · intro h hemp
    simp [perform_rag, hemp] at h
  · intro h hemp
    simp [Backend.perform_rag, hemp] at h

/-- Witness for C2: an index with no vectors under the namespace yields the
canned answer and no language-model call. -/
theorem rag_short_circuit_no_llm_witness :
    perform_rag (fun _ => [0]) (fun _ _ => []) (fun _ u => u) "q" "nonexistent" =
      ⟨[0], [], "No relevant context found for the query.", false⟩ :=
  ((rag_short_circuit_no_llm (fun _ => [0]) (fun _ _ => []) (fun _ u => u)
    "q" "nonexistent").1 rfl).1

/-- Claim C7: the structural chunker looks only at the direct children of
the root (the parse function consumes exactly that list), classifies every
recognised child into exactly one of class, method, variable, import or
export, drops children of unrecognised kind (producing nothing for them),
and never yields more chunks than children. -/
theorem parse_top_level_classification (code : String) (children : List TSNode) :
    (∀ c ∈ SimpleTreeSitterParser.parse code children,
      c.type ∈ chunkCategories ∧ ∃ n ∈ children, chunkOfNode code n = some c) ∧
    (∀ n, n.type ∉ recognizedNodeTypes → chunkOfNode code n = none) ∧
    (SimpleTreeSitterParser.parse code children).length ≤ children.length := by
  refine ⟨fun c hc => ?_, fun n hn => ?_, ?_⟩
  · rcases List.mem_filterMap.mp hc with ⟨n, hmem, hn⟩
    refine ⟨?_, n, hmem, hn⟩
    unfold chunkOfNode at hn
    split_ifs at hn <;> cases hn <;> simp [chunkCategories]
  · simp only [recognizedNodeTypes, List.mem_append, not_or] at hn
    obtain ⟨⟨⟨⟨h1, h2⟩, h3⟩, h4⟩, h5⟩ := hn
    simp [chunkOfNode, h1, h2, h3, h4, h5]
  · exact List.length_filterMap_le _ _

/-- Witness for C7: an expression statement at top level is an unrecognised
kind and yields no chunk. -/
theorem parse_top_level_classification_witness :
    chunkOfNode "x = 1\n" ⟨"expression_statement", 0, 5, 0, 0⟩ = none :=
  (parse_top_level_classification "x = 1\n" []).2.1
    ⟨"expression_statement", 0, 5, 0, 0⟩ (by decide)

theorem removeDotGit_cons_of_not_starts {c : Char} {rest : List Char}
    (h : startsList ['.', 'g', 'i', 't'] (c :: rest) = false) :
    removeDotGit (c :: rest) = c :: removeDotGit rest := by
  rw [removeDotGit.eq_def]
  split
  · next heq =>
    injection heq with e1 e2
    subst e1; subst e2
    simp [startsList] at h
  · next c2 rest2 heq =>
    injection heq with e1 e2
    subst e1; subst e2
    rfl
  · next heq => simp at heq

theorem startsList_gits_append (c : Char) (rest : List Char)
    (h : startsList ['.', 'g', 'i', 't'] (c :: rest) = false) :
    startsList ['.', 'g', 'i', 't'] (c :: (rest ++ ['.', 'g', 'i', 't'])) = false := by
  rcases rest with _ | ⟨a, _ | ⟨b, _ | ⟨d, t⟩⟩⟩ <;> simp_all [startsList]
  tauto

theorem substrList_gits_cons_false {c : Char} {rest : List Char}
    (h : substrList ['.', 'g', 'i', 't'] (c :: rest) = false) :
    startsList ['.', 'g', 'i', 't'] (c :: rest) = false ∧
    substrList ['.', 'g', 'i', 't'] rest = false := by
  simpa [substrList] using h

/-- When a character list has no occurrence of .git, appending one final
.git and running the replace loop removes exactly that suffix: no occurrence
can straddle the boundary because no proper suffix of .git is one of its
prefixes. -/
theorem removeDotGit_append_gits : ∀ p : List Char,
    substrList ['.', 'g', 'i', 't'] p = false →
    removeDotGit (p ++ ['.', 'g', 'i', 't']) = p := by
  intro p
  induction p with
  | nil => intro _; rfl
  | cons c rest ih =>
    intro h
    obtain ⟨h1, h2⟩ := substrList_gits_cons_false h
    rw [List.cons_append, removeDotGit_cons_of_not_starts (startsList_gits_append c rest h1),
      ih h2]

/-- Counterexample for C5: the last path segment of this URL does not end in
.git, yet the derivation removes the interior .git occurrence, so the
derived namespace differs from stripping only a trailing .git suffix. -/
theorem derive_namespace_interior_git_cex :
    derive_namespace "https://github.com/org/sample.github.io" = "samplehub.io" ∧
    specDeriveNamespace "https://github.com/org/sample.github.io" = "sample.github.io" ∧
    derive_namespace "https://github.com/org/sample.github.io" ≠
      specDeriveNamespace "https://github.com/org/sample.github.io" := by
  refine ⟨?_, ?_, ?_⟩ <;> decide

/-- Claim C5 amended: the namespace is derived deterministically from the
last path segment by removing every occurrence of .git left to right, not
only a trailing one; when the segment is a .git-free stem followed by a
single trailing .git the result is the stem, and the sample URL derives to
sample. -/
theorem derive_namespace_removes_all_git (repo_url : String) (p : List Char)
    (hseg : (splitOnSlash repo_url.toList).getLastD [] = p ++ ['.', 'g', 'i', 't'])
    (hno : substrList ['.', 'g', 'i', 't'] p = false) :
    derive_namespace repo_url = String.mk p ∧
    derive_namespace "https://github.com/org/sample.git" = "sample" := by
  refine ⟨?_, by decide⟩
  unfold derive_namespace
  rw [hseg, removeDotGit_append_gits p hno]

/-- Witness for C5 amended: the sample URL has last segment sample.git with
a .git-free stem, and derives to sample. -/
theorem derive_namespace_removes_all_git_witness :
    derive_namespace "https://github.com/org/sample.git" = "sample" :=
  (derive_namespace_removes_all_git "https://github.com/org/sample.git"
    ['s', 'a', 'm', 'p', 'l', 'e'] (by decide) (by decide)).2

/-- Counterexample for C3: same query, same namespace, same external
collaborators, two different conversation histories, and the retrieval step
embeds two different texts, producing different embedding vectors, because
query_codebase hands the history-augmented query to perform_rag, which
embeds it. -/
theorem query_codebase_history_changes_retrieval_cex :
    (query_codebase (fun s => [(s.length : Int)]) (fun _ _ => []) (fun _ u => u)
        "q" [] "ns").vector ≠
    (query_codebase (fun s => [(s.length : Int)]) (fun _ _ => []) (fun _ u => u)
        "q" [⟨"user", "hi"⟩] "ns").vector := by
  decide

/-- Claim C3 amended: the text embedded for retrieval is the
history-augmented query, not the latest user message alone: with an empty
history it is exactly the query, and with a non-empty history the linearized
role-tagged history block is prepended before embedding, so retrieval can
depend on the supplied history. -/
theorem query_codebase_embeds_augmented_query (embed : String → List Int)
    (index : String → List Int → List PMatch) (llm : String → String → String)
    (query : String) (history : List HistoryEntry) (ns : String) :
    (query_codebase embed index llm query history ns).vector =
      embed (if linearize_history history ≠ "" then
        "History:\n" ++ linearize_history history ++ "\n\nQuery:\n" ++ query
      else query) ∧
    (history = [] →
      (query_codebase embed index llm query history ns).vector = embed query) := by
  have key : ∀ q : String, (perform_rag embed index llm q ns).vector = embed q := by
    intro q
    by_cases h : index ns (embed q) = [] <;> simp [perform_rag, h]
  constructor
  · exact key _
  · intro he
    subst he
    exact key query

/-- Witness for C3 amended: with an empty history the embedded text is the
query itself. -/
theorem query_codebase_embeds_augmented_query_witness :
    (query_codebase (fun s => [(s.length : Int)]) (fun _ _ => []) (fun _ u => u)
        "q" [] "ns").vector = [1] := by
  have h := (query_codebase_embeds_augmented_query (fun s => [(s.length : Int)])
    (fun _ _ => []) (fun _ u => u) "q" [] "ns").2 rfl
  rw [h]
  decide

/-- Counterexample for C8: with two retrieved matches carrying identical
text, the assembled context passed to the language model contains the text
twice; nothing is collapsed, unlike the spec-side deduplicating assembly. -/
theorem context_assembly_no_dedup_cex :
    (perform_rag (fun _ => [0])
        (fun _ _ => [⟨5, some "dup"⟩, ⟨3, some "dup"⟩]) (fun _ u => u)
        "q" "ns").answer =
      "<CONTEXT>\ndup\n\n-------\n\ndup\n-------\n</CONTEXT>\n\nq" ∧
    specAssembleContext [⟨5, some "dup"⟩, ⟨3, some "dup"⟩] "q" =
      "<CONTEXT>\ndup\n-------\n</CONTEXT>\n\nq" ∧
    (perform_rag (fun _ => [0])
        (fun _ _ => [⟨5, some "dup"⟩, ⟨3, some "dup"⟩]) (fun _ u => u)
        "q" "ns").answer ≠
      specAssembleContext [⟨5, some "dup"⟩, ⟨3, some "dup"⟩] "q" := by
  refine ⟨?_, ?_, ?_⟩ <;> decide

/-- Claim C8 amended: no deduplication is performed; whenever matches come
back, the assembled context concatenates the text of every retrieved match,
duplicates included, in the order the index returned them (Pinecone returns
descending score order), separated by the visible delimiter inside the
framing markers, and the language model receives it with the query
appended. -/
theorem context_assembly_in_index_order (embed : String → List Int)
    (index : String → List Int → List PMatch) (llm : String → String → String)
    (query ns : String) (h : index ns (embed query) ≠ []) :
    (perform_rag embed index llm query ns).answer =
      llm frontSystemPrompt ("<CONTEXT>\n" ++
        String.intercalate "\n\n-------\n\n"
          ((index ns (embed query)).map (fun m => m.text.getD "")) ++
        "\n-------\n</CONTEXT>\n\n" ++ query) ∧
    (Backend.perform_rag embed index llm query ns).answer =
      llm backendSystemPrompt ("<CONTEXT>\n" ++
        String.intercalate "\n\n-------\n\n"
          ((index ns (embed query)).map (fun m => m.text.getD "")) ++
        "\n-------\n</CONTEXT>\n\n\n\nMY QUESTION:\n" ++ query) := by
  constructor <;> simp [perform_rag, Backend.perform_rag, h]

/-- Witness for C8 amended: one match with text a assembles the expected
context around a. -/
theorem context_assembly_in_index_order_witness :
    (perform_rag (fun _ => [0]) (fun _ _ => [⟨5, some "a"⟩]) (fun _ u => u)
        "q" "ns").answer =
      "<CONTEXT>\na\n-------\n</CONTEXT>\n\nq" := by
  have h := (context_assembly_in_index_order (fun _ => [0])
    (fun _ _ => [⟨5, some "a"⟩]) (fun _ u => u) "q" "ns" (by decide)).1
  rw [h]
  decide

/-- Counterexample for C1: a walk containing an unsupported-extension file
(notes.rst with content hello) next to a supported one produces only the
chunk of the supported file; the unsupported file contributes no file-kind
chunk (no chunk at all), contradicting the claimed whole-file fallback for
unsupported extensions. -/
theorem chunking_unsupported_extension_cex :
    parse_repo_store_all
        [⟨"repo", [⟨"notes.rst", some "hello", some []⟩,
                   ⟨"a.py", some "x = 1\n", some []⟩]⟩] =
      Except.ok [⟨"file", "x = 1\n", none, none, some "repo/a.py"⟩] ∧
    Chunk.mk "file" "hello" none none (some "repo/notes.rst") ∉
      [Chunk.mk "file" "x = 1\n" none none (some "repo/a.py")] := by
  exact ⟨by rfl, by decide⟩

/-- A file with a supported extension, readable and non-empty, always
contributes the whole-file chunk to its processFile output, whether or not
structural parsing succeeded. -/
theorem processFile_mem_file_chunk (root : String) (f : SrcFile) (code : String)
    (hext : pySplitextExt f.name ∈ SUPPORTED_EXTENSIONS)
    (hcode : f.content = some code) (hne : code ≠ "") :
    Chunk.mk "file" code none none (some (os_path_join root f.name)) ∈
      processFile root f := by
  have hnotig : pySplitextExt f.name ∉ IGNORED_EXTENSIONS := by
    simp only [SUPPORTED_EXTENSIONS, List.mem_cons, List.not_mem_nil, or_false] at hext
    rcases hext with h|h|h|h|h|h|h <;> rw [h] <;> decide
  unfold processFile
  rw [if_neg hnotig, if_pos hext, hcode]
  dsimp only
  rw [if_neg hne]
  cases f.parseOutcome with
  | none => simp
  | some children => simp

/-- Claim C1 amended: files whose extension is outside the supported set are
skipped and contribute no chunk; the whole-file fallback applies to files
with supported extensions, which always contribute a file-kind chunk whose
content equals the full file text whenever the file is readable and
non-empty, including when structural parsing raises. -/
theorem supported_file_always_contributes_file_chunk (walk : List WalkEntry)
    (e : WalkEntry) (f : SrcFile) (code : String)
    (he : e ∈ walk)
    (hroot : (IGNORED_DIRS.any fun d => pyInStr d e.root) = false)
    (hf : f ∈ e.files)
    (hext : pySplitextExt f.name ∈ SUPPORTED_EXTENSIONS)
    (hcode : f.content = some code) (hne : code ≠ "") :
    ∃ chunks, parse_repo_store_all walk = Except.ok chunks ∧
      Chunk.mk "file" code none none (some (os_path_join e.root f.name)) ∈ chunks := by
  have h1 : Chunk.mk "file" code none none (some (os_path_join e.root f.name)) ∈
      processFile e.root f :=
    processFile_mem_file_chunk e.root f code hext hcode hne
  have h2 : Chunk.mk "file" code none none (some (os_path_join e.root f.name)) ∈
      processEntry e := by
    unfold processEntry
    rw [hroot]
    simpa using List.mem_flatMap.mpr ⟨f, hf, h1⟩
  have h3 : Chunk.mk "file" code none none (some (os_path_join e.root f.name)) ∈
      collectChunks walk :=
    List.mem_flatMap.mpr ⟨e, he, h2⟩
  refine ⟨collectChunks walk, ?_, h3⟩
  unfold parse_repo_store_all
  rw [if_neg (List.ne_nil_of_mem h3)]

/-- Witness for C1 amended: a supported file whose structural parse raised
(parseOutcome none) still contributes its whole-file chunk. -/
theorem supported_file_always_contributes_file_chunk_witness :
    ∃ chunks,
      parse_repo_store_all [⟨"repo", [⟨"a.py", some "x = 1\n", none⟩]⟩] =
        Except.ok chunks ∧
      Chunk.mk "file" "x = 1\n" none none (some "repo/a.py") ∈ chunks :=
  supported_file_always_contributes_file_chunk
    [⟨"repo", [⟨"a.py", some "x = 1\n", none⟩]⟩]
    ⟨"repo", [⟨"a.py", some "x = 1\n", none⟩]⟩
    ⟨"a.py", some "x = 1\n", none⟩ "x = 1\n"
    (by decide) (by decide) (by decide) (by decide) rfl (by decide)

/-- Counterexample for C6: a produced whole-file chunk carries no line range
at all (start_line and end_line keys are absent), so the claimed invariant
that every chunk has a 1-based inclusive line range bounding its content
fails; structural chunks likewise carry no path key. -/
theorem chunk_record_invariant_cex :
    parse_repo_store_all [⟨"repo", [⟨"a.py", some "x = 1\n", some []⟩]⟩] =
      Except.ok [⟨"file", "x = 1\n", none, none, some "repo/a.py"⟩] ∧
    (Chunk.mk "file" "x = 1\n" none none (some "repo/a.py")).start_line = none := by
  exact ⟨by rfl, rfl⟩

/-- The slice a structural chunk stores is a contiguous substring of the
source text it was cut from. -/
theorem pySlice_substring_of_source (s : String) (a b : Nat) :
    (pySlice s a b).toList <:+: s.toList := by
  have e1 : (pySlice s a b).toList = (s.toList.drop a).take (b - a) := rfl
  refine ⟨s.toList.take a, (s.toList.drop a).drop (b - a), ?_⟩
  rw [e1, List.append_assoc, List.take_append_drop, List.take_append_drop]

/-- Inversion for chunkOfNode: a produced structural chunk has one of the
five structural kinds, no path key, the 1-based line numbers of the node and
the byte-offset slice of the code as content. -/
theorem chunkOfNode_some_cases (code : String) (n : TSNode) (c : Chunk)
    (h : chunkOfNode code n = some c) :
    c.type ∈ chunkCategories ∧ c.file_path = none ∧
    c.start_line = some (n.start_row + 1) ∧ c.end_line = some (n.end_row + 1) ∧
    c.content = pySlice code n.start_byte n.end_byte := by
  unfold chunkOfNode at h
  split_ifs at h <;> cases h <;> simp [chunkCategories]

/-- Inversion for processFile: every chunk it emits is either the
whole-file chunk of a readable non-empty file, or a structural chunk
produced by the classifier from one direct child of the parse tree root. -/
theorem processFile_mem_cases (root : String) (f : SrcFile) (c : Chunk)
    (hc : c ∈ processFile root f) :
    (∃ code, f.content = some code ∧ code ≠ "" ∧
      c = Chunk.mk "file" code none none (some (os_path_join root f.name))) ∨
    (∃ code children, f.content = some code ∧ code ≠ "" ∧
      f.parseOutcome = some children ∧
      ∃ n ∈ children, chunkOfNode code n = some c) := by
  unfold processFile at hc
  dsimp only at hc
  split_ifs at hc
  · simp at hc
  · cases hcon : f.content with
    | none => rw [hcon] at hc; simp at hc
    | some code =>
      rw [hcon] at hc
      dsimp only at hc
      by_cases hne : code = ""
      · rw [if_pos hne] at hc; simp at hc
      · rw [if_neg hne] at hc
        cases hpo : f.parseOutcome with
        | none =>
          rw [hpo] at hc
          dsimp only at hc
          simp only [List.mem_singleton] at hc
          exact Or.inl ⟨code, rfl, hne, hc⟩
        | some children =>
          rw [hpo] at hc
          dsimp only at hc
          rcases List.mem_append.mp hc with hstruct | hfile
          · rcases List.mem_filterMap.mp hstruct with ⟨n, hn, heq⟩
            exact Or.inr ⟨code, children, rfl, hne, rfl, n, hn, heq⟩
          · simp only [List.mem_singleton] at hfile
            exact Or.inl ⟨code, rfl, hne, hfile⟩
  · simp at hc

/-- Claim C6 amended: every chunk returned by parse_repo_store_all is
either a whole-file chunk (kind file, content the full non-empty text of a
walked file, its path recorded, no line range) or a structural chunk (kind
among class, method, variable, import, export, no path, a 1-based inclusive
line range with end_line at least start_line under the tree-sitter node
ordering invariant, and content a contiguous substring of the file text
delimited by the node byte offsets rather than whole lines). -/
theorem chunk_shape_invariant (walk : List WalkEntry)
    (hwf : ∀ e ∈ walk, ∀ f ∈ e.files, ∀ out, f.parseOutcome = some out →
      ∀ n ∈ out, n.start_row ≤ n.end_row)
    (chunks : List Chunk) (hok : parse_repo_store_all walk = Except.ok chunks) :
    ∀ c ∈ chunks,
      (c.type = "file" ∧ c.start_line = none ∧ c.end_line = none ∧ c.content ≠ "" ∧
        ∃ e ∈ walk, ∃ f ∈ e.files, f.content = some c.content ∧
          c.file_path = some (os_path_join e.root f.name)) ∨
      (c.type ∈ chunkCategories ∧ c.file_path = none ∧
        (∃ sl el, c.start_line = some sl ∧ c.end_line = some el ∧ 1 ≤ sl ∧ sl ≤ el) ∧
        ∃ e ∈ walk, ∃ f ∈ e.files, ∃ code, f.content = some code ∧
          c.content.toList <:+: code.toList) := by
  intro c hc
  have hchunks : chunks = collectChunks walk := by
    unfold parse_repo_store_all at hok
    by_cases hnil : collectChunks walk = []
    · rw [if_pos hnil] at hok; cases hok
    · rw [if_neg hnil] at hok; cases hok; rfl
  subst hchunks
  rcases List.mem_flatMap.mp hc with ⟨e, he, hce⟩
  have hce2 : c ∈ e.files.flatMap (processFile e.root) := by
    unfold processEntry at hce
    split_ifs at hce
    · simp at hce
    · exact hce
  rcases List.mem_flatMap.mp hce2 with ⟨f, hf, hcf⟩
  rcases processFile_mem_cases e.root f c hcf with
    ⟨code, hcon, hne, rfl⟩ | ⟨code, children, hcon, hne, hpo, n, hn, heq⟩
  · exact Or.inl ⟨rfl, rfl, rfl, hne, e, he, f, hf, hcon, rfl⟩
  · obtain ⟨hcat, hpath, hsl, hel, hcontent⟩ := chunkOfNode_some_cases code n c heq
    refine Or.inr ⟨hcat, hpath,
      ⟨n.start_row + 1, n.end_row + 1, hsl, hel, by omega, ?_⟩,
      e, he, f, hf, code, hcon, ?_⟩
    · have := hwf e he f hf children hpo n hn
      omega
    · rw [hcontent]
      exact pySlice_substring_of_source code n.start_byte n.end_byte

/-- Witness for C6 amended: a one-file walk whose parse produced one import
node; the structural chunk it yields satisfies the structural branch of the
invariant. -/
theorem chunk_shape_invariant_witness :
    ((Chunk.mk "import" "import os" (some 1) (some 1) none).type = "file" ∧
      (Chunk.mk "import" "import os" (some 1) (some 1) none).start_line = none ∧
      (Chunk.mk "import" "import os" (some 1) (some 1) none).end_line = none ∧
      (Chunk.mk "import" "import os" (some 1) (some 1) none).content ≠ "" ∧
      ∃ e ∈ [WalkEntry.mk "repo"
          [⟨"a.py", some "import os\n", some [⟨"import_statement", 0, 9, 0, 0⟩]⟩]],
        ∃ f ∈ e.files,
          f.content = some (Chunk.mk "import" "import os" (some 1) (some 1) none).content ∧
          (Chunk.mk "import" "import os" (some 1) (some 1) none).file_path =
            some (os_path_join e.root f.name)) ∨
    ((Chunk.mk "import" "import os" (some 1) (some 1) none).type ∈ chunkCategories ∧
      (Chunk.mk "import" "import os" (some 1) (some 1) none).file_path = none ∧
      (∃ sl el, (Chunk.mk "import" "import os" (some 1) (some 1) none).start_line = some sl ∧
        (Chunk.mk "import" "import os" (some 1) (some 1) none).end_line = some el ∧
        1 ≤ sl ∧ sl ≤ el) ∧
      ∃ e ∈ [WalkEntry.mk "repo"
          [⟨"a.py", some "import os\n", some [⟨"import_statement", 0, 9, 0, 0⟩]⟩]],
        ∃ f ∈ e.files, ∃ code, f.content = some code ∧
          (Chunk.mk "import" "import os" (some 1) (some 1) none).content.toList <:+:
            code.toList) :=
  chunk_shape_invariant
    [WalkEntry.mk "repo"
      [⟨"a.py", some "import os\n", some [⟨"import_statement", 0, 9, 0, 0⟩]⟩]]
    (by decide)
    [⟨"import", "import os", some 1, some 1, none⟩,
     ⟨"file", "import os\n", none, none, some "repo/a.py"⟩]
    (by rfl)
    (Chunk.mk "import" "import os" (some 1) (some 1) none)
    (by decide)
